import Mathlib

/-!
Shallow embedding of `src/src/BoundaryVector.h` from the ibpm repository.

The C++ class `ibpm::BoundaryVector` stores a vector of quantities at `n`
boundary points, with two direction components (X and Y) per point, backed by
one contiguous blitz `Array<double,1>` of length `2 * n`.

Modelling conventions:
* `double` elements are modelled as exact rationals (`ℚ`); the spec's
  "within floating-point tolerance" equalities are proved exactly.
* The blitz array is modelled as a `List ℚ`; indices and point counts are
  `Nat` (the source's `assert(i >= 0)` checks are absorbed by the type).
* Operations whose source carries an `assert` precondition are `Option`-valued:
  `none` models the assertion failure; an in-range call returns `some`.
* `Direction.h` is `#include`d by the source but is not under `src/`; its
  constants are modelled from the spec (see `X`, `Y`, `XY` below).
* The blitz `Array` size constructor's zero fill is modelled from the spec
  ("Result: zero-valued vector of size `2n`"), blitz being an external
  library whose source is not part of this repository.
-/

namespace ibpm

/-- Modelled from the spec: direction `X` from `Direction.h` (not under
`src/`); "direction 0 (X) occupying indices `[0, numPoints)`". -/
def X : Nat := 0

/-- Modelled from the spec: direction `Y` from `Direction.h` (not under
`src/`); "direction 1 (Y) occupying `[numPoints, 2*numPoints)`". -/
def Y : Nat := 1

/-- Modelled from the spec: the count `XY` of directions from `Direction.h`
(not under `src/`); the buffer has `2 * numPoints` elements. -/
def XY : Nat := 2

/-- The `ibpm::BoundaryVector` class: a point count `_numPoints` and the
backing blitz array `_data` (a contiguous buffer of doubles). -/
structure BoundaryVector where
  numPoints : Nat
  data : List ℚ
deriving DecidableEq, Repr

namespace BoundaryVector

/-- The class invariant maintained by every constructor and operation:
the backing buffer has length `2 * numPoints` (spec: "buffer length always
equals `2 * numPoints`"). -/
def wf (f : BoundaryVector) : Prop := f.data.length = XY * f.numPoints

instance (f : BoundaryVector) : Decidable f.wf := by
  unfold wf; infer_instance

/-- `BoundaryVector(int n)`: allocates `_data( _numPoints * XY )`.
The zero fill of a freshly allocated blitz array is modelled from the spec:
"Construct(n): ... Result: zero-valued vector of size `2n`." -/
def construct (n : Nat) : BoundaryVector :=
  { numPoints := n, data := List.replicate (n * XY) 0 }

/-- `BoundaryVector(const BoundaryVector& f)`: allocate a buffer of the same
size and copy the data (`_data = f._data`). -/
def copyCtor (f : BoundaryVector) : BoundaryVector :=
  { numPoints := f.numPoints, data := f.data }

/-- `getNumPoints()`: return the number of boundary points. -/
def getNumPoints (f : BoundaryVector) : Nat := f.numPoints

/-- `getSize()`: return `XY * _numPoints`, the number of elements. -/
def getSize (f : BoundaryVector) : Nat := XY * f.numPoints

/-- `operator()(int dir, int i)` (read): asserts `dir >= X && dir <= Y` and
`0 <= i && i < _numPoints`, then returns `_data(dir * _numPoints + i)`. -/
def atPoint (f : BoundaryVector) (dir i : Nat) : Option ℚ :=
  if dir ≤ Y ∧ i < f.numPoints then some (f.data.getD (dir * f.numPoints + i) 0)
  else none

/-- `operator()(index ind)` (read): asserts `0 <= ind && ind < _numPoints * XY`,
then returns `_data(ind)`. -/
def atIndex (f : BoundaryVector) (ind : Nat) : Option ℚ :=
  if ind < f.numPoints * XY then some (f.data.getD ind 0) else none

/-- Element write through `operator()(index ind)` returning `double&`:
same bounds assertion, then the referenced element is assigned. -/
def setIndex (f : BoundaryVector) (ind : Nat) (v : ℚ) : Option BoundaryVector :=
  if ind < f.numPoints * XY then some { f with data := f.data.set ind v }
  else none

/-- `begin()`: the index of the first element. -/
def beginAll (f : BoundaryVector) : Nat := 0

/-- `end()`: one past the last element, `_numPoints * XY`. -/
def endAll (f : BoundaryVector) : Nat := f.numPoints * XY

/-- `begin(int dir)`: asserts `X <= dir <= Y`, returns `dir * _numPoints`. -/
def beginDir (f : BoundaryVector) (dir : Nat) : Option Nat :=
  if dir ≤ Y then some (dir * f.numPoints) else none

/-- `end(int dir)`: asserts `X <= dir <= Y`, returns `(dir+1) * _numPoints`. -/
def endDir (f : BoundaryVector) (dir : Nat) : Option Nat :=
  if dir ≤ Y then some ((dir + 1) * f.numPoints) else none

/-- `getIndex(int dir, int i)`: asserts the same bounds as element access,
returns the flat index `dir * _numPoints + i`. -/
def getIndex (f : BoundaryVector) (dir i : Nat) : Option Nat :=
  if dir ≤ Y ∧ i < f.numPoints then some (dir * f.numPoints + i) else none

/-- `operator=(const BoundaryVector& f)`: asserts equal `_numPoints`, then
`_data = f._data`. -/
def assign (f g : BoundaryVector) : Option BoundaryVector :=
  if g.numPoints = f.numPoints then some { f with data := g.data } else none

/-- `operator=(double a)`: `_data = a`, setting every element to `a`. -/
def assignScalar (f : BoundaryVector) (a : ℚ) : BoundaryVector :=
  { f with data := f.data.map (fun _ => a) }

/-- `operator+=`: asserts equal `_numPoints`, then `_data += f._data`
(elementwise addition). -/
def addAssign (f g : BoundaryVector) : Option BoundaryVector :=
  if g.numPoints = f.numPoints then
    some { f with data := List.zipWith (· + ·) f.data g.data }
  else none

/-- `operator-=`: asserts equal `_numPoints`, then `_data -= f._data`
(elementwise subtraction). -/
def subAssign (f g : BoundaryVector) : Option BoundaryVector :=
  if g.numPoints = f.numPoints then
    some { f with data := List.zipWith (· - ·) f.data g.data }
  else none

/-- `operator*=(double a)`: `_data *= a`, scaling every element. -/
def mulAssign (f : BoundaryVector) (a : ℚ) : BoundaryVector :=
  { f with data := f.data.map (· * a) }

/-- `operator/=(double a)`: `_data /= a`, dividing every element. -/
def divAssign (f : BoundaryVector) (a : ℚ) : BoundaryVector :=
  { f with data := f.data.map (· / a) }

/-- `operator+`: `BoundaryVector h = *this; h += g; return h;`
(copy, then compound add). -/
def add (f g : BoundaryVector) : Option BoundaryVector :=
  (copyCtor f).addAssign g

/-- `operator-`: `BoundaryVector h = *this; h -= g; return h;`
(copy, then compound subtract). -/
def sub (f g : BoundaryVector) : Option BoundaryVector :=
  (copyCtor f).subAssign g

/-- `operator*(double a)`: `BoundaryVector g = *this; g *= a; return g;`. -/
def mul (f : BoundaryVector) (a : ℚ) : BoundaryVector :=
  (copyCtor f).mulAssign a

/-- `operator/(double a)`: `BoundaryVector g = *this; g /= a; return g;`. -/
def div (f : BoundaryVector) (a : ℚ) : BoundaryVector :=
  (copyCtor f).divAssign a

end BoundaryVector

/-- Free `operator-(const BoundaryVector& f)`: copy, then `g *= -1`. -/
def neg (f : BoundaryVector) : BoundaryVector :=
  (BoundaryVector.copyCtor f).mulAssign (-1)

/-- Free `operator*(double a, const BoundaryVector& f)`: copy, then `g *= a`. -/
def smulLeft (a : ℚ) (f : BoundaryVector) : BoundaryVector :=
  (BoundaryVector.copyCtor f).mulAssign a

/-- Free friend `InnerProduct(x, y)`: `sum(x._data * y._data)`, the sum of
the elementwise product of the two backing arrays. -/
def InnerProduct (x y : BoundaryVector) : ℚ :=
  (List.zipWith (· * ·) x.data y.data).sum

/-- A concrete `n = 2` vector with X components `[1, 2]` and Y components
`[3, 4]`, used by the spec's worked inner-product example. -/
def exampleVec : BoundaryVector := { numPoints := 2, data := [1, 2, 3, 4] }

/- Helper lemmas about the list operations backing the blitz array. -/

lemma zipWith_mul_sum_eq (a : List ℚ) :
    ∀ (b : List ℚ) (L : Nat), a.length = L → b.length = L →
      (List.zipWith (· * ·) a b).sum =
        ∑ k in Finset.range L, a.getD k 0 * b.getD k 0 := by
  induction a with
  | nil =>
    intro b L ha hb
    subst ha
    simp
  | cons x xs ih =>
    intro b L ha hb
    cases b with
    | nil => simp at ha hb; omega
    | cons y ys =>
      cases L with
      | zero => simp at ha
      | succ M =>
        simp only [List.zipWith_cons_cons, List.sum_cons]
        rw [Finset.sum_range_succ']
        simp only [List.getD_cons_succ, List.getD_cons_zero]
        rw [ih ys M (by simpa using ha) (by simpa using hb)]
        ring

lemma zipWith_add_sub_cancel (a : List ℚ) :
    ∀ b : List ℚ, a.length = b.length →
      List.zipWith (· - ·) (List.zipWith (· + ·) a b) b = a := by
  induction a with
  | nil => intro b _; simp
  | cons x xs ih =>
    intro b hab
    cases b with
    | nil => simp at hab
    | cons y ys =>
      simp only [List.zipWith_cons_cons, add_sub_cancel_right, List.cons.injEq,
        true_and]
      exact ih ys (by simpa using hab)

lemma map_mul_div_cancel (a : ℚ) (ha : a ≠ 0) (l : List ℚ) :
    (l.map (· * a)).map (· / a) = l := by
  rw [List.map_map]
  have h : ((· / a) ∘ (· * a)) = (id : ℚ → ℚ) := by
    funext x
    simp only [Function.comp_apply, id_eq]
    exact mul_div_cancel_right₀ x ha
  rw [h, List.map_id]

lemma wf_length (f : BoundaryVector) (hf : f.wf) :
    f.data.length = 2 * f.numPoints := hf

/-! Claim theorems. -/

/-- C1: a `BoundaryVector` freshly constructed with point count `n > 0` has
`getSize()` equal to `2 * n`, a backing buffer of that length, and every one
of its `2n` elements equal to `0`. -/
theorem construct_size_and_zero (n : Nat) (h : 0 < n) :
    (BoundaryVector.construct n).getSize = 2 * n ∧
    (BoundaryVector.construct n).data.length = 2 * n ∧
    ∀ k, k < 2 * n → (BoundaryVector.construct n).data[k]? = some 0 := by
  refine ⟨?_, ?_, ?_⟩
  · simp [BoundaryVector.getSize, BoundaryVector.construct, XY]
  · simp [BoundaryVector.construct, XY]; omega
  · intro k hk
    simp only [BoundaryVector.construct, List.getElem?_replicate, XY]
    rw [if_pos (by omega)]

/-- Witness for C1 at `n = 3`. -/
theorem construct_size_and_zero_witness :
    (BoundaryVector.construct 3).getSize = 2 * 3 ∧
    (BoundaryVector.construct 3).data[5]? = some 0 :=
  ⟨(construct_size_and_zero 3 (by decide)).1,
   (construct_size_and_zero 3 (by decide)).2.2 5 (by decide)⟩

/-- C2: for vectors with equal `numPoints` `n`, `InnerProduct(x, y)` is the
sum over all `2n` flat indices `k` of `x(k) * y(k)` (both components summed
together); in particular `InnerProduct(f, f)` is the sum of squares of all
`2n` elements, and for `n = 2` with X components `[1, 2]` and Y components
`[3, 4]` it equals `30`. -/
theorem InnerProduct_flat_sum (x y : BoundaryVector) (hx : x.wf) (hy : y.wf)
    (hn : x.numPoints = y.numPoints) :
    InnerProduct x y =
      ∑ k in Finset.range (2 * x.numPoints), x.data.getD k 0 * y.data.getD k 0 ∧
    InnerProduct x x =
      ∑ k in Finset.range (2 * x.numPoints), x.data.getD k 0 * x.data.getD k 0 ∧
    InnerProduct exampleVec exampleVec = 30 := by
  have hx' := wf_length x hx
  have hy' := wf_length y hy
  refine ⟨?_, ?_, ?_⟩
  · exact zipWith_mul_sum_eq x.data y.data (2 * x.numPoints) hx' (by omega)
  · exact zipWith_mul_sum_eq x.data x.data (2 * x.numPoints) hx' hx'
  · norm_num [InnerProduct, exampleVec]

/-- Witness for C2 at the spec's worked example vector. -/
theorem InnerProduct_flat_sum_witness :
    InnerProduct exampleVec exampleVec =
      ∑ k in Finset.range (2 * exampleVec.numPoints),
        exampleVec.data.getD k 0 * exampleVec.data.getD k 0 :=
  (InnerProduct_flat_sum exampleVec exampleVec (by decide) (by decide) rfl).1

/-- C3: copy assignment and the compound operators `+=` and `-=` fail their
assertion (return `none`, performing no partial operation) exactly when the
two vectors' `numPoints` differ; with equal `numPoints` the assertion never
fails. -/
theorem assign_compound_assert (f g : BoundaryVector) :
    (f.numPoints ≠ g.numPoints →
      f.assign g = none ∧ f.addAssign g = none ∧ f.subAssign g = none) ∧
    (f.numPoints = g.numPoints →
      (f.assign g).isSome ∧ (f.addAssign g).isSome ∧ (f.subAssign g).isSome) := by
  constructor
  · intro h
    have h' : ¬ (g.numPoints = f.numPoints) := fun e => h e.symm
    simp [BoundaryVector.assign, BoundaryVector.addAssign,
      BoundaryVector.subAssign, h']
  · intro h
    simp [BoundaryVector.assign, BoundaryVector.addAssign,
      BoundaryVector.subAssign, h.symm]

/-- Witness for C3: an `n = 3` vector against an `n = 2` vector fails, and
two `n = 2` vectors succeed. -/
theorem assign_compound_assert_witness :
    ((BoundaryVector.construct 3).assign (BoundaryVector.construct 2) = none ∧
     (BoundaryVector.construct 3).addAssign (BoundaryVector.construct 2) = none ∧
     (BoundaryVector.construct 3).subAssign (BoundaryVector.construct 2) = none) ∧
    (((BoundaryVector.construct 2).assign (BoundaryVector.construct 2)).isSome ∧
     ((BoundaryVector.construct 2).addAssign (BoundaryVector.construct 2)).isSome ∧
     ((BoundaryVector.construct 2).subAssign (BoundaryVector.construct 2)).isSome) :=
  ⟨(assign_compound_assert (BoundaryVector.construct 3)
      (BoundaryVector.construct 2)).1 (by decide),
   (assign_compound_assert (BoundaryVector.construct 2)
      (BoundaryVector.construct 2)).2 rfl⟩

/-- C4: for vectors with equal `numPoints`, `(f + g) - g` equals `f`
elementwise (exactly, in the exact-arithmetic model of `double`). -/
theorem add_sub_roundtrip (f g : BoundaryVector) (hf : f.wf) (hg : g.wf)
    (hn : f.numPoints = g.numPoints) :
    (f.add g).bind (fun h => h.sub g) = some f := by
  have hn' : g.numPoints = f.numPoints := hn.symm
  have hlen : f.data.length = g.data.length := by
    have := wf_length f hf
    have := wf_length g hg
    omega
  have hd := zipWith_add_sub_cancel f.data g.data hlen
  simp [BoundaryVector.add, BoundaryVector.sub, BoundaryVector.addAssign,
    BoundaryVector.subAssign, BoundaryVector.copyCtor, hn', hd]

/-- Witness for C4 at two concrete `n = 2` vectors. -/
theorem add_sub_roundtrip_witness :
    (exampleVec.add { numPoints := 2, data := [5, 6, 7, 8] }).bind
      (fun h => h.sub { numPoints := 2, data := [5, 6, 7, 8] }) =
      some exampleVec :=
  add_sub_roundtrip exampleVec { numPoints := 2, data := [5, 6, 7, 8] }
    (by decide) (by decide) rfl

/-- C5: for every vector `f` and scalar `a ≠ 0`, `(f * a) / a` equals `f`
elementwise (exactly, in the exact-arithmetic model of `double`). -/
theorem mul_div_roundtrip (f : BoundaryVector) (a : ℚ) (ha : a ≠ 0) :
    (f.mul a).div a = f := by
  simp [BoundaryVector.mul, BoundaryVector.div, BoundaryVector.mulAssign,
    BoundaryVector.divAssign, BoundaryVector.copyCtor,
    map_mul_div_cancel a ha f.data]

/-- Witness for C5 at the example vector and `a = 5`. -/
theorem mul_div_roundtrip_witness :
    (exampleVec.mul 5).div 5 = exampleVec :=
  mul_div_roundtrip exampleVec 5 (by norm_num)

/-- C6: for `dir ∈ {X = 0, Y = 1}` and `i ∈ [0, numPoints)`, the flat index
`getIndex(dir, i)` equals `dir * numPoints + i`, and the two-argument
accessor `f(dir, i)` returns the same value as the flat accessor
`f(getIndex(dir, i))`. -/
theorem getIndex_consistent (f : BoundaryVector) (dir i : Nat)
    (hd : dir ≤ Y) (hi : i < f.numPoints) :
    f.getIndex dir i = some (dir * f.numPoints + i) ∧
    (f.getIndex dir i).bind f.atIndex = f.atPoint dir i := by
  have hd1 : dir ≤ 1 := hd
  have hb : dir * f.numPoints + i < f.numPoints * XY := by
    interval_cases dir <;> simp [XY] <;> omega
  constructor
  · simp [BoundaryVector.getIndex, hd, hi]
  · simp [BoundaryVector.getIndex, BoundaryVector.atIndex,
      BoundaryVector.atPoint, hd, hi, hb]

/-- Witness for C6 at the example vector, direction `Y`, point `0`. -/
theorem getIndex_consistent_witness :
    exampleVec.getIndex 1 0 = some (1 * exampleVec.numPoints + 0) ∧
    (exampleVec.getIndex 1 0).bind exampleVec.atIndex =
      exampleVec.atPoint 1 0 :=
  getIndex_consistent exampleVec 1 0 (by decide) (by decide)

/-- C7: `[begin(X), end(X))` holds exactly `numPoints` flat indices, as does
`[begin(Y), end(Y))`; the two ranges are disjoint, and their union is the
full range `[begin(), end()) = [0, 2 * numPoints)`. -/
theorem dir_index_ranges (f : BoundaryVector) :
    f.beginDir X = some f.beginAll ∧
    f.endDir X = some f.numPoints ∧
    f.beginDir Y = some f.numPoints ∧
    f.endDir Y = some f.endAll ∧
    (Finset.Ico f.beginAll f.numPoints).card = f.numPoints ∧
    (Finset.Ico f.numPoints f.endAll).card = f.numPoints ∧
    Disjoint (Finset.Ico f.beginAll f.numPoints)
      (Finset.Ico f.numPoints f.endAll) ∧
    Finset.Ico f.beginAll f.numPoints ∪ Finset.Ico f.numPoints f.endAll =
      Finset.Ico f.beginAll f.endAll := by
  refine ⟨?_, ?_, ?_, ?_, ?_, ?_, ?_, ?_⟩
  · simp [BoundaryVector.beginDir, X, Y, BoundaryVector.beginAll]
  · simp [BoundaryVector.endDir, X, Y]
  · simp [BoundaryVector.beginDir, Y]
  · simp [BoundaryVector.endDir, Y, BoundaryVector.endAll, XY]
    omega
  · simp [BoundaryVector.beginAll, Nat.card_Ico]
  · simp [BoundaryVector.endAll, Nat.card_Ico, XY]
    omega
  · exact Finset.Ico_disjoint_Ico_consecutive _ _ _
  · exact Finset.Ico_union_Ico_eq_Ico
      (by simp [BoundaryVector.beginAll])
      (by simp [BoundaryVector.endAll, XY]; omega)

/-- C8: the binary operators `+`, `-`, `*`, `/` are pure in the embedding
(they are functions of their operands): each is exactly copy-construct then
the corresponding compound operator, the copy equals the original as a
value, and the result (when the size assertion passes) has the operands'
`numPoints`. -/
theorem binary_ops_pure (f g : BoundaryVector) (a : ℚ)
    (hn : f.numPoints = g.numPoints) :
    f.add g = (BoundaryVector.copyCtor f).addAssign g ∧
    f.sub g = (BoundaryVector.copyCtor f).subAssign g ∧
    f.mul a = (BoundaryVector.copyCtor f).mulAssign a ∧
    f.div a = (BoundaryVector.copyCtor f).divAssign a ∧
    BoundaryVector.copyCtor f = f ∧
    (∃ h, f.add g = some h ∧ h.numPoints = f.numPoints) ∧
    (∃ h, f.sub g = some h ∧ h.numPoints = f.numPoints) ∧
    (f.mul a).numPoints = f.numPoints ∧
    (f.div a).numPoints = f.numPoints := by
  have hn' : g.numPoints = f.numPoints := hn.symm
  refine ⟨rfl, rfl, rfl, rfl, rfl, ?_, ?_, rfl, rfl⟩
  · refine ⟨BoundaryVector.mk f.numPoints
        (List.zipWith (· + ·) f.data g.data), ?_, rfl⟩
    simp [BoundaryVector.add, BoundaryVector.addAssign,
      BoundaryVector.copyCtor, hn']
  · refine ⟨BoundaryVector.mk f.numPoints
        (List.zipWith (· - ·) f.data g.data), ?_, rfl⟩
    simp [BoundaryVector.sub, BoundaryVector.subAssign,
      BoundaryVector.copyCtor, hn']

/-- Witness for C8 at the example vector and `a = 5`. -/
theorem binary_ops_pure_witness :
    BoundaryVector.copyCtor exampleVec = exampleVec ∧
    (exampleVec.mul 5).numPoints = exampleVec.numPoints :=
  ⟨(binary_ops_pure exampleVec exampleVec 5 rfl).2.2.2.2.1,
   (binary_ops_pure exampleVec exampleVec 5 rfl).2.2.2.2.2.2.2.1⟩

/-- C9: every operation of the public interface leaves `numPoints` unchanged
and preserves the invariant that the buffer length equals `2 * numPoints`. -/
theorem interface_preserves_invariant (f g : BoundaryVector) (a v : ℚ)
    (ind : Nat) (hf : f.wf) (hg : g.wf) :
    (∀ r, f.setIndex ind v = some r → r.wf ∧ r.numPoints = f.numPoints) ∧
    ((f.assignScalar a).wf ∧ (f.assignScalar a).numPoints = f.numPoints) ∧
    (∀ r, f.assign g = some r → r.wf ∧ r.numPoints = f.numPoints) ∧
    (∀ r, f.addAssign g = some r → r.wf ∧ r.numPoints = f.numPoints) ∧
    (∀ r, f.subAssign g = some r → r.wf ∧ r.numPoints = f.numPoints) ∧
    ((f.mulAssign a).wf ∧ (f.mulAssign a).numPoints = f.numPoints) ∧
    ((f.divAssign a).wf ∧ (f.divAssign a).numPoints = f.numPoints) ∧
    (∀ r, f.add g = some r → r.wf ∧ r.numPoints = f.numPoints) ∧
    (∀ r, f.sub g = some r → r.wf ∧ r.numPoints = f.numPoints) ∧
    ((f.mul a).wf ∧ (f.mul a).numPoints = f.numPoints) ∧
    ((f.div a).wf ∧ (f.div a).numPoints = f.numPoints) ∧
    ((neg f).wf ∧ (neg f).numPoints = f.numPoints) ∧
    ((smulLeft a f).wf ∧ (smulLeft a f).numPoints = f.numPoints) := by
  have hf' := wf_length f hf
  have hg' := wf_length g hg
  refine ⟨?_, ?_, ?_, ?_, ?_, ?_, ?_, ?_, ?_, ?_, ?_, ?_, ?_⟩
  · intro r hr
    simp only [BoundaryVector.setIndex] at hr
    split at hr
    · cases hr
      exact ⟨by simpa [BoundaryVector.wf] using hf, rfl⟩
    · cases hr
  · exact ⟨by simpa [BoundaryVector.wf, BoundaryVector.assignScalar] using hf,
      rfl⟩
  · intro r hr
    simp only [BoundaryVector.assign] at hr
    split at hr
    · cases hr
      refine ⟨?_, rfl⟩
      simp only [BoundaryVector.wf, XY] at hf hg ⊢
      omega
    · cases hr
  · intro r hr
    simp only [BoundaryVector.addAssign] at hr
    split at hr
    · cases hr
      refine ⟨?_, rfl⟩
      simp only [BoundaryVector.wf, XY, List.length_zipWith] at hf hg ⊢
      omega
    · cases hr
  · intro r hr
    simp only [BoundaryVector.subAssign] at hr
    split at hr
    · cases hr
      refine ⟨?_, rfl⟩
      simp only [BoundaryVector.wf, XY, List.length_zipWith] at hf hg ⊢
      omega
    · cases hr
  · exact ⟨by simpa [BoundaryVector.wf, BoundaryVector.mulAssign] using hf,
      rfl⟩
  · exact ⟨by simpa [BoundaryVector.wf, BoundaryVector.divAssign] using hf,
      rfl⟩
  · intro r hr
    simp only [BoundaryVector.add, BoundaryVector.addAssign,
      BoundaryVector.copyCtor] at hr
    split at hr
    · cases hr
      refine ⟨?_, rfl⟩
      simp only [BoundaryVector.wf, XY, List.length_zipWith] at hf hg ⊢
      omega
    · cases hr
  · intro r hr
    simp only [BoundaryVector.sub, BoundaryVector.subAssign,
      BoundaryVector.copyCtor] at hr
    split at hr
    · cases hr
      refine ⟨?_, rfl⟩
      simp only [BoundaryVector.wf, XY, List.length_zipWith] at hf hg ⊢
      omega
    · cases hr
  · exact ⟨by simpa [BoundaryVector.wf, BoundaryVector.mul,
      BoundaryVector.mulAssign, BoundaryVector.copyCtor] using hf, rfl⟩
  · exact ⟨by simpa [BoundaryVector.wf, BoundaryVector.div,
      BoundaryVector.divAssign, BoundaryVector.copyCtor] using hf, rfl⟩
  · exact ⟨by simpa [BoundaryVector.wf, neg, BoundaryVector.mulAssign,
      BoundaryVector.copyCtor] using hf, rfl⟩
  · exact ⟨by simpa [BoundaryVector.wf, smulLeft, BoundaryVector.mulAssign,
      BoundaryVector.copyCtor] using hf, rfl⟩

/-- Witness for C9 at the example vector. -/
theorem interface_preserves_invariant_witness :
    (exampleVec.assignScalar 5).wf ∧
    (exampleVec.assignScalar 5).numPoints = exampleVec.numPoints :=
  (interface_preserves_invariant exampleVec exampleVec 5 7 0
    (by decide) (by decide)).2.1

/-- C10: `InnerProduct` is symmetric in its two arguments. -/
theorem InnerProduct_comm (x y : BoundaryVector)
    (hn : x.numPoints = y.numPoints) :
    InnerProduct x y = InnerProduct y x := by
  unfold InnerProduct
  rw [List.zipWith_comm_of_comm (· * ·) mul_comm]

/-- Witness for C10 at two concrete `n = 2` vectors. -/
theorem InnerProduct_comm_witness :
    InnerProduct exampleVec (BoundaryVector.construct 2) =
      InnerProduct (BoundaryVector.construct 2) exampleVec :=
  InnerProduct_comm exampleVec (BoundaryVector.construct 2) rfl

end ibpm
